import Mathlib

/-!
Verification of the probe-engine asynchronous task runner and related
components against their natural-language specification.

The oonimkall task-runner implementation is only present in this repository
through its integration tests, so the runner itself is modelled from the
specification (definitions marked `Modelled from the spec:`).  The hhfm
experiment (`experiment/hhfm/hhfm.go`) and the miniooni option coercion
(`libminiooni.MainWithConfiguration`) are embedded directly from the source.
-/

/-- Event keys form a closed vocabulary (spec section 6). -/
inductive EventKey where
  | queued
  | started
  | progress
  | geoipLookup
  | resolverLookup
  | reportCreate
  | measurementStart
  | logEv
  | measurement
  | measurementSubmission
  | measurementDone
  | statusEnd
  | failureStartup
  | taskTerminated
deriving DecidableEq, Repr

/-- Input policy of an experiment: it may require input, accept optional
input, or take no input (spec section 6, collaborator interfaces). -/
inductive InputPolicy where
  | required
  | optional
  | noInput
deriving DecidableEq, Repr

/-- Modelled from the spec: the startup configuration for one task
(spec section 3, Config), restricted to the fields the claims touch. -/
structure Settings where
  name : String
  assetsDir : String
  stateDir : String
  inputs : List String
  inputFilepaths : List String
  noGeoip : Bool
  noResolverLookup : Bool
  noCollector : Bool
  maxRuntime : Int
  saveRealProbeASN : Bool
  saveRealProbeCC : Bool
  saveRealProbeIP : Bool

/-- Modelled from the spec: the experiment registry consulted by the
session's experiment-builder construction (missing from src/; the names are
the ones exercised by the integration tests). -/
def experimentPolicy : String → Option InputPolicy
  | "Example" => some InputPolicy.noInput
  | "ExampleWithFailure" => some InputPolicy.noInput
  | "ExampleWithInput" => some InputPolicy.required
  | "ExampleWithInputNonInterruptible" => some InputPolicy.required
  | "Ndt7" => some InputPolicy.noInput
  | _ => none

/-- Modelled from the spec: the soft startup checks of the ConfigValidator
(spec section 4.1, item 2), run in order with short-circuiting.  Returns
the first diagnostic, or none when the configuration is accepted. -/
def softCheck (s : Settings) : Option String :=
  match experimentPolicy s.name with
  | none => some "unknown experiment name"
  | some pol =>
    if s.assetsDir = "" then some "empty assets directory"
    else if s.stateDir = "" then some "empty state directory"
    else if s.noGeoip = true ∧ s.noResolverLookup = false then
      some "inconsistent geoip settings"
    else if s.inputFilepaths ≠ [] then some "unsupported input_filepaths setting"
    else if pol = InputPolicy.noInput ∧ s.inputs ≠ [] then
      some "experiment does not take input"
    else if pol = InputPolicy.required ∧ s.inputs = [] then
      some "experiment requires input"
    else none

/-- Modelled from the spec: experiments that take no (or optional) input are
internally run once against the empty input, so a task always measures a
non-empty input list. -/
def effectiveInputs (s : Settings) : List String :=
  if s.inputs.isEmpty then [""] else s.inputs

/-- Environment of one run: everything outside the runner's control — the
interrupt flag as observed at each cooperative checkpoint, wall-clock
durations, and how many optional progress/log events each phase emits. -/
structure RunEnv where
  interruptFlag : Nat → Bool
  inputDur : Nat → Nat
  setupDur : Nat
  finalDur : Nat
  progressBefore : Nat
  progressMid : Nat
  logsPerInput : Nat → Nat
  progressPerInput : Nat → Nat

/-- Modelled from the spec: the max-runtime deadline check — the deadline is
start-time plus max_runtime, so it is exceeded when the configured runtime is
positive and the elapsed time has reached it (spec section 4.4). -/
def deadlineExceeded (s : Settings) (elapsed : Nat) : Bool :=
  decide (0 < s.maxRuntime ∧ s.maxRuntime ≤ (elapsed : Int))

/-- Modelled from the spec: the events emitted while measuring one input
(spec section 4.3 canonical sequence, per-input block). -/
def inputBlock (s : Settings) (env : RunEnv) (i : Nat) : List EventKey :=
  [EventKey.measurementStart] ++
  List.replicate (env.logsPerInput i) EventKey.logEv ++
  List.replicate (env.progressPerInput i) EventKey.progress ++
  [EventKey.measurement] ++
  (if s.noCollector then [] else [EventKey.measurementSubmission])

/-- Modelled from the spec: the per-input measurement loop.  The interrupt
flag and the deadline are checked only at the cooperative checkpoint between
one input and the next (spec section 4.4), so the first input is started
unconditionally and an in-flight input runs to completion. -/
def runInputs (s : Settings) (env : RunEnv) :
    List String → Nat → Nat → List EventKey
  | [], _, _ => []
  | _ :: rest, i, elapsed =>
    if 0 < i ∧ (env.interruptFlag i = true ∨ deadlineExceeded s elapsed = true) then []
    else inputBlock s env i ++
      runInputs s env rest (i + 1) (elapsed + env.inputDur i)

/-- Modelled from the spec: the events between `status.started` and
`status.end`.  A failed soft startup check short-circuits to a single
`failure.startup`; otherwise the runner performs the lookups, opens the
report when a collector is in use, and measures each input in order
(spec sections 4.1 and 4.3). -/
def mainEvents (s : Settings) (env : RunEnv) : List EventKey :=
  match softCheck s with
  | some _ => [EventKey.failureStartup]
  | none =>
    List.replicate env.progressBefore EventKey.progress ++
    [EventKey.geoipLookup, EventKey.resolverLookup] ++
    List.replicate env.progressMid EventKey.progress ++
    (if s.noCollector then [] else [EventKey.reportCreate]) ++
    runInputs s env (effectiveInputs s) 0 env.setupDur ++
    [EventKey.measurementDone]

/-- Modelled from the spec: the full event trace of one task.  Every run
starts with `status.queued`/`status.started` and ends with `status.end`
followed by the terminal `task_terminated` (spec section 4.3). -/
def runTask (s : Settings) (env : RunEnv) : List EventKey :=
  [EventKey.queued, EventKey.started] ++ mainEvents s env ++
  [EventKey.statusEnd, EventKey.taskTerminated]

/-- Modelled from the spec: the wall-clock time consumed by the measurement
loop, threading the elapsed clock through the same checkpoints as
`runInputs`. -/
def elapsedAfter (s : Settings) (env : RunEnv) :
    List String → Nat → Nat → Nat
  | [], _, elapsed => elapsed
  | _ :: rest, i, elapsed =>
    if 0 < i ∧ (env.interruptFlag i = true ∨ deadlineExceeded s elapsed = true) then elapsed
    else elapsedAfter s env rest (i + 1) (elapsed + env.inputDur i)

/-- Modelled from the spec: total wall-clock duration of a task — setup
(lookups), the measurement loop, and finalization. -/
def totalDuration (s : Settings) (env : RunEnv) : Nat :=
  match softCheck s with
  | some _ => env.finalDur
  | none => elapsedAfter s env (effectiveInputs s) 0 env.setupDur + env.finalDur

/-- A live task as handed to the consumer: it owns the event trace that the
consumer will drain (spec section 3, Task). -/
structure TaskHandle where
  events : List EventKey

/-- A startup configuration payload: either structurally undecodable JSON or
a decoded Settings value (spec section 4.1, item 1). -/
inductive ConfigPayload where
  | malformed (raw : String)
  | decoded (s : Settings)

/-- Modelled from the spec: the start operation.  Only a payload that cannot
be structurally decoded yields a synchronous error and no task; every decoded
payload yields a live task whose trace is produced by the runner
(spec sections 4.1 and 7). -/
def startTask (p : ConfigPayload) (env : RunEnv) : Except String TaskHandle :=
  match p with
  | ConfigPayload.malformed _ => Except.error "json syntax error"
  | ConfigPayload.decoded s => Except.ok ⟨runTask s env⟩

/-- Collapse consecutive duplicate elements of a list, mirroring how the
integration tests compress the observed event-key sequence before comparing
it with the canonical order. -/
def dedup {α : Type} [DecidableEq α] : List α → List α
  | [] => []
  | a :: t =>
    match dedup t with
    | [] => [a]
    | b :: u => if a = b then b :: u else a :: b :: u

/-- Modelled from the spec: the decoded probe fields of a measurement that
privacy post-processing inspects (spec section 4.3). -/
structure MeasurementRec where
  probeASN : String
  probeCC : String
  probeIP : String
deriving DecidableEq, Repr

/-- Modelled from the spec: privacy post-processing applied to the
measurement before the `measurement` event is emitted — each probe field is
replaced by its fixed sentinel unless the corresponding save_real_probe_*
flag is set (spec section 4.3). -/
def scrubMeasurement (s : Settings) (m : MeasurementRec) : MeasurementRec :=
  { probeASN := if s.saveRealProbeASN then m.probeASN else "AS0"
    probeCC := if s.saveRealProbeCC then m.probeCC else "ZZ"
    probeIP := if s.saveRealProbeIP then m.probeIP else "127.0.0.1" }

/-- Modelled from the spec: the metadata handed to the orchestra
registration operation (the register implementation is missing from src/;
fields follow the mockable fixture used by its tests). -/
structure OrchestraMetadata where
  platform : String
  probeASN : String
  probeCC : String
  softwareName : String
  softwareVersion : String
  supportedTests : List String
deriving DecidableEq, Repr

/-- Modelled from the spec: metadata validation performed by MaybeRegister —
zero-valued metadata is rejected, the test fixture passes. -/
def metadataValid (m : OrchestraMetadata) : Bool :=
  !m.platform.isEmpty && !m.probeASN.isEmpty && !m.probeCC.isEmpty &&
  !m.softwareName.isEmpty && !m.softwareVersion.isEmpty &&
  !m.supportedTests.isEmpty

/-- Modelled from the spec: the orchestra client state that MaybeRegister
reads and writes — the durable state file holding client credentials once
registered, the count of network registration API calls performed, and
whether the register endpoint is reachable. -/
structure OrchestraClient where
  stateCreds : Option (String × String)
  registerCalls : Nat
  apiWorks : Bool
deriving DecidableEq, Repr

/-- Modelled from the spec: MaybeRegister (implementation missing from
src/) — invalid metadata is an error; when the state file already holds
credentials the call succeeds without any network activity; otherwise one
registration API call is attempted and, on success, the credentials are
stored durably. -/
def maybeRegister (md : OrchestraMetadata) (c : OrchestraClient) :
    OrchestraClient × Option String :=
  if metadataValid md = false then (c, some "invalid metadata")
  else match c.stateCreds with
  | some _ => (c, none)
  | none =>
    let c2 := { c with registerCalls := c.registerCalls + 1 }
    if c.apiWorks then
      ({ c2 with stateCreds := some ("registered-client-id", "registered-pw") },
        none)
    else (c2, some "register API call failed")

/-- Modelled from the spec: calling MaybeRegister n more times with the same
metadata against the same durable state. -/
def repeatMaybeRegister (md : OrchestraMetadata) :
    Nat → OrchestraClient → OrchestraClient
  | 0, c => c
  | n + 1, c => repeatMaybeRegister md n (maybeRegister md c).1

/-- The metadata fixture used by the registration tests. -/
def orchestraMetadataFixture : OrchestraMetadata :=
  { platform := "linux", probeASN := "AS117", probeCC := "IT",
    softwareName := "miniooni", softwareVersion := "0.1.0-dev",
    supportedTests := ["web_connectivity"] }

/-- Experiment-option actions performed by the coercion loop of
libminiooni.MainWithConfiguration: SetOptionBool, SetOptionInt,
SetOptionString, or the fatal path taken when strconv.ParseInt fails. -/
inductive OptionAction where
  | setBool (key : String) (value : Bool)
  | setInt (key : String) (value : Int)
  | setString (key : String) (value : String)
  | fatal (msg : String)
deriving DecidableEq, Repr

/-- Embedding of the compiled regular expression match for the pattern
matching one-or-more ASCII digits anchored at both ends, as used by
MainWithConfiguration. -/
def intRegexpMatch (s : String) : Bool :=
  !s.data.isEmpty && s.data.all Char.isDigit

/-- Numeric value of an all-digit string, as accumulated by
strconv.ParseInt in base 10. -/
def digitsToNat (s : String) : Nat :=
  s.data.foldl (fun acc c => acc * 10 + (c.toNat - 48)) 0

/-- Largest value representable in a signed 64-bit integer. -/
def maxInt64 : Nat := 9223372036854775807

/-- Embedding of strconv.ParseInt(value, 10, 64) on an all-digit string:
the numeric value when it fits in a signed 64-bit integer, an error (none)
on range overflow. -/
def goParseInt64 (s : String) : Option Int :=
  if digitsToNat s ≤ maxInt64 then some (digitsToNat s) else none

/-- Embedding of the extra-option coercion loop of
libminiooni.MainWithConfiguration: the literals true/false become boolean
options, values matching the digit regular expression are parsed with
strconv.ParseInt (whose failure is fatal via fatalOnError), and everything
else becomes a string option. -/
def setExperimentOption (key value : String) : OptionAction :=
  if value = "true" ∨ value = "false" then
    OptionAction.setBool key (value == "true")
  else if intRegexpMatch value = true then
    match goParseInt64 value with
    | some n => OptionAction.setInt key n
    | none => OptionAction.fatal "cannot parse integer option"
  else OptionAction.setString key value

/-- The archival MaybeBinaryValue wrapper (declared in netx/archival,
modelled from its use in hhfm.go). -/
structure MaybeBinaryValue where
  value : String
deriving DecidableEq, Repr

/-- The archival HTTPHeader pair (declared in netx/archival, modelled from
its use in hhfm.go). -/
structure HTTPHeader where
  key : String
  value : MaybeBinaryValue
deriving DecidableEq, Repr

/-- The archival HTTPRequest record as filled by hhfm.go; the Headers map is
modelled as its iteration sequence of key/value pairs. -/
structure ArchivalHTTPRequest where
  headers : List (String × MaybeBinaryValue)
  headersList : List HTTPHeader
  method : String
  url : String
deriving DecidableEq, Repr

/-- The archival HTTPResponse record as filled by hhfm.go. -/
structure ArchivalHTTPResponse where
  body : MaybeBinaryValue
  code : Int
  headers : List (String × MaybeBinaryValue)
  headersList : List HTTPHeader
deriving DecidableEq, Repr

/-- The archival RequestEntry record as filled by hhfm.go. -/
structure RequestEntry where
  request : ArchivalHTTPRequest
  failure : Option String
  response : Option ArchivalHTTPResponse
deriving DecidableEq, Repr

/-- Ordering of archival headers by header key, the comparison used by the
sort.Slice calls in hhfm.go. -/
def headerLe (a b : HTTPHeader) : Prop := a.key ≤ b.key

instance : DecidableRel headerLe :=
  fun a b => inferInstanceAs (Decidable (a.key ≤ b.key))

instance : IsTotal HTTPHeader headerLe := ⟨fun a b => le_total a.key b.key⟩

instance : IsTrans HTTPHeader headerLe := ⟨fun _ _ _ h1 h2 => le_trans h1 h2⟩

/-- The key/value pair carried by an archival header. -/
def headerPair (h : HTTPHeader) : String × MaybeBinaryValue := (h.key, h.value)

/-- Embedding of hhfm.NewRequestEntryList: one request entry whose Headers
map and HeadersList are built from the same randomized headers, the list
being sorted by header key.  The Go map is modelled as its iteration
sequence of key/value pairs, and sort.Slice as a sort with respect to
headerLe. -/
def NewRequestEntryList (method url : String)
    (headers : List (String × String)) : List RequestEntry :=
  [{ request :=
      { headers := headers.map (fun kv => (kv.1, ⟨kv.2⟩)),
        headersList := List.insertionSort headerLe
          (headers.map (fun kv => { key := kv.1, value := ⟨kv.2⟩ })),
        method := method,
        url := url },
     failure := none,
     response := none }]

/-- Embedding of hhfm.NewHTTPResponse: the archival response built from the
status code, the response headers (modelled as the iteration sequence of
keys with their first value, as retrieved by Header.Get), and the body. -/
def NewHTTPResponse (code : Int) (headers : List (String × String))
    (data : String) : ArchivalHTTPResponse :=
  { body := ⟨data⟩,
    code := code,
    headers := headers.map (fun kv => (kv.1, ⟨kv.2⟩)),
    headersList := List.insertionSort headerLe
      (headers.map (fun kv => { key := kv.1, value := ⟨kv.2⟩ })) }

/-- The response body structure returned by the hhfm test helper. -/
structure JSONHeaders where
  headersDict : List (String × List String)
  requestLine : String

/-- Embedding of the character class accepted unchanged by
textproto.CanonicalMIMEHeaderKey (letters, digits, and the token special
characters). -/
def isTokenChar (c : Char) : Bool :=
  c.isAlphanum || c = '!' || c = '#' || c = '$' || c = '%' || c = '&' ||
  c = Char.ofNat 39 || c = '*' || c = '+' || c = '-' || c = '.' || c = '^' ||
  c = '_' || c = Char.ofNat 96 || c = '|' || c = '~'

/-- Canonical capitalization pass of textproto.CanonicalMIMEHeaderKey: the
first letter and every letter following a hyphen are upper-cased, the rest
lower-cased. -/
def canonTransform : List Char → Bool → List Char
  | [], _ => []
  | c :: rest, upper =>
    (if upper then c.toUpper else c.toLower) :: canonTransform rest (c = '-')

/-- Embedding of http.CanonicalHeaderKey: the canonical capitalization when
all characters are valid header tokens, the input unchanged otherwise. -/
def canonicalHeaderKey (s : String) : String :=
  if s.data.all isTokenChar then ⟨canonTransform s.data true⟩ else s

/-- Lookup in an association list, modelling Go map indexing. -/
def lookupStr {α : Type} (k : String) (l : List (String × α)) : Option α :=
  match l.find? (fun p => p.1 == k) with
  | some p => some p.2
  | none => none

/-- Insert-or-overwrite in an association list, modelling Go map
assignment. -/
def insertOver (l : List (String × String)) (k v : String) :
    List (String × String) :=
  if l.any (fun p => p.1 == k) then
    l.map (fun p => if p.1 == k then (k, v) else p)
  else l ++ [(k, v)]

/-- The canonical-key-to-original-key map built by TestKeys.FillTampering
for one side (expected or received headers). -/
def buildKeyMap (keys : List String) : List (String × String) :=
  keys.foldl (fun acc k => insertOver acc (canonicalHeaderKey k) k) []

/-- The hhfm tampering verdicts (hhfm.go, Tampering struct). -/
structure Tampering where
  headerFieldName : Bool
  headerFieldNumber : Bool
  headerFieldValue : Bool
  headerNameCapitalization : Bool
  headerNameDiff : List String
  requestLineCapitalization : Bool
  total : Bool
deriving DecidableEq, Repr

/-- The hhfm experiment test keys (hhfm.go, TestKeys struct). -/
structure TestKeys where
  agent : String
  failure : Option String
  requests : List RequestEntry
  socksProxy : Option String
  tampering : Tampering
deriving DecidableEq, Repr

/-- Embedding of TestKeys.FillTampering: request-line and header-count
comparisons, then for every canonical key common to the sent and received
headers a capitalization comparison and a value comparison. -/
def fillTampering (tk : TestKeys) (method : String) (jsonHeaders : JSONHeaders)
    (headers : List (String × String)) : TestKeys :=
  let expected := buildKeyMap (headers.map Prod.fst)
  let received := buildKeyMap (jsonHeaders.headersDict.map Prod.fst)
  let t0 := { tk.tampering with
    requestLineCapitalization :=
      (method ++ " / HTTP/1.1") != jsonHeaders.requestLine
    headerFieldNumber := headers.length != jsonHeaders.headersDict.length }
  let commonKeys := (expected.map Prod.fst).filter
    (fun k => (lookupStr k received).isSome)
  let t1 := commonKeys.foldl (fun t k =>
    let expectedKey := (lookupStr k expected).getD ""
    let receivedKey := (lookupStr k received).getD ""
    let t := if expectedKey ≠ receivedKey then
        { t with
          headerNameCapitalization := true
          headerNameDiff := t.headerNameDiff ++ [expectedKey, receivedKey] }
      else t
    let expectedValue := (lookupStr expectedKey headers).getD ""
    let receivedValue := (lookupStr receivedKey jsonHeaders.headersDict).getD []
    if receivedValue.length ≠ 1 ∨ receivedValue.head? ≠ some expectedValue then
      { t with headerFieldValue := true }
    else t) t0
  { tk with tampering := t1 }

/-- The outcome of one HTTP round trip: status code, response headers, and
body bytes. -/
structure TransactResult where
  code : Int
  headers : List (String × String)
  body : String
deriving DecidableEq, Repr

/-- Embedding of hhfm.transact: a round-trip error propagates, a non-200
status is ErrHTTPRequestFailed, a body-read error propagates, otherwise the
response and its body are returned.  The SafeErrWrapperBuilder wrapping of
Transact only rewrites the error string, so it is not modelled
separately. -/
def transact (roundTrip : Except String TransactResult)
    (readBodyErr : Option String) : Except String TransactResult :=
  match roundTrip with
  | Except.error e => Except.error e
  | Except.ok r =>
    if r.code ≠ 200 then Except.error "http_request_failed"
    else match readBodyErr with
      | some e => Except.error e
      | none => Except.ok r

/-- One test helper entry as returned by the session (model.Service:
address and type). -/
structure TestHelper where
  address : String
  helperType : String
deriving DecidableEq, Repr

/-- The collaborators of one hhfm Measurer.Run invocation: the session's
test-helper lookup, the possible http.NewRequest failure, the randomized
request headers, the round-trip and body-read outcomes, and the JSON parse
of the helper response body. -/
structure RunDeps where
  helpers : Option (List TestHelper)
  newRequestErr : Option String
  requestHeaders : List (String × String)
  roundTrip : Except String TransactResult
  readBodyErr : Option String
  parseJSONHeaders : String → Option JSONHeaders

/-- Set the Failure of the first request entry, as done by
tk.Requests[0].Failure. -/
def setFirstFailure (l : List RequestEntry) (f : Option String) :
    List RequestEntry :=
  match l with
  | [] => []
  | e :: rest => { e with failure := f } :: rest

/-- Set the Response of the first request entry, as done by
tk.Requests[0].Response. -/
def setFirstResponse (l : List RequestEntry) (r : ArchivalHTTPResponse) :
    List RequestEntry :=
  match l with
  | [] => []
  | e :: rest => { e with response := some r } :: rest

/-- Embedding of hhfm Measurer.Run: helper selection, request preparation,
the HTTP transaction, response-body parsing, and tampering analysis.  The
archival.NewFailure conversion keeps the error string; the
errorx.FailureJSONParseError constant is the json_parse_error failure
string.  The returned pair is (error returned to the caller, final
TestKeys). -/
def hhfmRun (d : RunDeps) : Option String × TestKeys :=
  let tk : TestKeys :=
    { agent := "agent"
      failure := none
      requests := []
      socksProxy := none
      tampering := {
        headerFieldName := false
        headerFieldNumber := false
        headerFieldValue := false
        headerNameCapitalization := false
        headerNameDiff := []
        requestLineCapitalization := false
        total := false } }
  match d.helpers with
  | none => (some "no available helpers", tk)
  | some [] => (some "no available helpers", tk)
  | some (helper :: _) =>
    if helper.helperType ≠ "legacy" then (some "invalid helper type", tk)
    else match d.newRequestErr with
      | some e => (some e, tk)
      | none =>
        let tk := { tk with
          requests := NewRequestEntryList "GeT" helper.address d.requestHeaders }
        match transact d.roundTrip d.readBodyErr with
        | Except.error e =>
          let f : Option String := some e
          (none, { tk with
            failure := f
            requests := setFirstFailure tk.requests f
            tampering := { tk.tampering with total := true } })
        | Except.ok r =>
          let tk := { tk with
            requests := setFirstResponse tk.requests
              (NewHTTPResponse r.code r.headers r.body) }
          match d.parseJSONHeaders r.body with
          | none =>
            (none, { tk with
              failure := some "json_parse_error"
              tampering := { tk.tampering with total := true } })
          | some jh => (none, fillTampering tk "GeT" jh d.requestHeaders)

/-- C1: a payload that cannot be structurally decoded makes the start
operation fail synchronously with no task (hence no event), while every
decodable payload — regardless of any other configuration defect — yields a
live task and no synchronous error. -/
theorem startTask_sync_error_iff_malformed (raw : String) (s : Settings)
    (env : RunEnv) :
    startTask (ConfigPayload.malformed raw) env = Except.error "json syntax error" ∧
    ∃ t : TaskHandle, startTask (ConfigPayload.decoded s) env = Except.ok t ∧
      t.events.head? = some EventKey.queued := by
  refine ⟨rfl, ⟨⟨runTask s env⟩, rfl, ?_⟩⟩
  simp [runTask]


/-- Helper: any of the soft-check conditions makes the validator report a
diagnostic. -/
theorem softCheck_ne_none_of (s : Settings)
    (h : experimentPolicy s.name = none ∨ s.assetsDir = "" ∨ s.stateDir = "" ∨
      (s.noGeoip = true ∧ s.noResolverLookup = false) ∨
      s.inputFilepaths ≠ [] ∨
      (experimentPolicy s.name = some InputPolicy.required ∧ s.inputs = [])) :
    softCheck s ≠ none := by
  rcases h with h | h | h | h | h | h <;>
    · unfold softCheck
      cases hpol : experimentPolicy s.name
      · simp
      · split_ifs <;> simp_all

/-- C2: a structurally decodable configuration that fails a soft startup
check still produces a full task whose trace contains exactly one
`failure.startup`, emitted after `status.queued`/`status.started` and before
the terminal `task_terminated`, and no measurement is attempted. -/
theorem soft_failure_trace (s : Settings) (env : RunEnv)
    (h : experimentPolicy s.name = none ∨ s.assetsDir = "" ∨ s.stateDir = "" ∨
      (s.noGeoip = true ∧ s.noResolverLookup = false) ∨
      s.inputFilepaths ≠ [] ∨
      (experimentPolicy s.name = some InputPolicy.required ∧ s.inputs = [])) :
    runTask s env = [EventKey.queued, EventKey.started, EventKey.failureStartup,
      EventKey.statusEnd, EventKey.taskTerminated] ∧
    (runTask s env).count EventKey.failureStartup = 1 ∧
    (runTask s env).count EventKey.measurement = 0 ∧
    (runTask s env).count EventKey.measurementStart = 0 := by
  obtain ⟨e, he⟩ := Option.ne_none_iff_exists'.mp (softCheck_ne_none_of s h)
  have htrace : runTask s env = [EventKey.queued, EventKey.started,
      EventKey.failureStartup, EventKey.statusEnd, EventKey.taskTerminated] := by
    simp [runTask, mainEvents, he]
  refine ⟨htrace, ?_, ?_, ?_⟩ <;> rw [htrace] <;> decide

/-- Witness for C2 at a concrete configuration with inconsistent geoip
settings (the configuration of TestIntegrationInconsistentGeoIPSettings). -/
theorem soft_failure_trace_witness :
    ((⟨"Example", "assets", "state", [], [], true, false, false, 0,
        false, false, false⟩ : Settings).noGeoip = true ∧
      (⟨"Example", "assets", "state", [], [], true, false, false, 0,
        false, false, false⟩ : Settings).noResolverLookup = false) ∧
    (runTask ⟨"Example", "assets", "state", [], [], true, false, false, 0,
        false, false, false⟩
      ⟨fun _ => false, fun _ => 0, 0, 0, 1, 1, fun _ => 1, fun _ => 1⟩).count
      EventKey.failureStartup = 1 := by
  refine ⟨⟨rfl, rfl⟩, ?_⟩
  exact (soft_failure_trace _ _ (Or.inr (Or.inr (Or.inr (Or.inl ⟨rfl, rfl⟩))))).2.1

/-- Helper: every event produced by the per-input loop is one of the five
per-input keys. -/
theorem mem_runInputs (s : Settings) (env : RunEnv) :
    ∀ (l : List String) (i e : Nat) (x : EventKey),
      x ∈ runInputs s env l i e →
      x = EventKey.measurementStart ∨ x = EventKey.logEv ∨ x = EventKey.progress ∨
      x = EventKey.measurement ∨ x = EventKey.measurementSubmission := by
  intro l
  induction l with
  | nil => intro i e x hx; simp [runInputs] at hx
  | cons a rest ih =>
    intro i e x hx
    rw [runInputs] at hx
    split at hx
    · simp at hx
    · rw [List.mem_append] at hx
      rcases hx with hx | hx
      · by_cases hnc : s.noCollector <;> simp [inputBlock, hnc] at hx <;> tauto
      · exact ih _ _ x hx

/-- Helper: when the soft checks pass, every event of the main body is one of
the nine regular mid-run keys. -/
theorem mem_mainEvents_ok (s : Settings) (env : RunEnv)
    (hsoft : softCheck s = none) (x : EventKey) (hx : x ∈ mainEvents s env) :
    x = EventKey.progress ∨ x = EventKey.geoipLookup ∨ x = EventKey.resolverLookup ∨
    x = EventKey.reportCreate ∨ x = EventKey.measurementStart ∨ x = EventKey.logEv ∨
    x = EventKey.measurement ∨ x = EventKey.measurementSubmission ∨
    x = EventKey.measurementDone := by
  unfold mainEvents at hx
  rw [hsoft] at hx
  have hr := mem_runInputs s env (effectiveInputs s) 0 env.setupDur x
  by_cases hnc : s.noCollector <;> simp [hnc] at hx <;> tauto

/-- Helper: the terminal key never occurs strictly inside the main body. -/
theorem taskTerminated_not_mem_mainEvents (s : Settings) (env : RunEnv) :
    EventKey.taskTerminated ∉ mainEvents s env := by
  intro hx
  cases hs : softCheck s with
  | some e => simp [mainEvents, hs] at hx
  | none =>
    rcases mem_mainEvents_ok s env hs _ hx with h | h | h | h | h | h | h | h | h <;>
      simp at h

/-- C4: in every run — successful, startup-failed, interrupted, or
deadline-exceeded — `task_terminated` is the last event and occurs exactly
once, so nothing can follow it. -/
theorem taskTerminated_is_last (s : Settings) (env : RunEnv) :
    (runTask s env).getLast? = some EventKey.taskTerminated ∧
    (runTask s env).count EventKey.taskTerminated = 1 := by
  constructor
  · unfold runTask
    rw [List.getLast?_append_of_ne_nil _
      (show ([EventKey.statusEnd, EventKey.taskTerminated] : List EventKey) ≠ [] by simp)]
    rfl
  · unfold runTask
    rw [List.count_append, List.count_append]
    have h0 : (mainEvents s env).count EventKey.taskTerminated = 0 :=
      List.count_eq_zero.mpr (taskTerminated_not_mem_mainEvents s env)
    rw [h0]
    decide

/-- Helper: dedup of a non-empty list keeps the head. -/
theorem head?_dedup {α : Type} [DecidableEq α] (a : α) (l : List α) :
    (dedup (a :: l)).head? = some a := by
  cases h : dedup l with
  | nil => simp [dedup, h]
  | cons b u => by_cases hab : a = b <;> simp [dedup, h, hab]

/-- Helper: dedup only looks at the dedup of the tail. -/
theorem dedup_cons_congr {α : Type} [DecidableEq α] (a : α) {t t' : List α}
    (h : dedup t = dedup t') : dedup (a :: t) = dedup (a :: t') := by
  simp only [dedup, h]

/-- Helper: a run of equal elements collapses to a single occurrence. -/
theorem dedup_replicate_succ {α : Type} [DecidableEq α] (n : Nat) (a : α)
    (l : List α) :
    dedup (List.replicate (n + 1) a ++ l) = dedup (a :: l) := by
  induction n with
  | zero => simp [List.replicate]
  | succ m ih =>
    rw [List.replicate_succ, List.cons_append]
    rw [dedup_cons_congr a ih]
    cases h2 : dedup (a :: l) with
    | nil => exact absurd (head?_dedup a l) (by simp [h2])
    | cons b u =>
      have hb : b = a := by
        have hh := head?_dedup a l
        rw [h2] at hh
        simpa using hh
      have e1 : dedup (a :: a :: l) = match dedup (a :: l) with
          | [] => [a]
          | b :: u => if a = b then b :: u else a :: b :: u := rfl
      rw [e1, h2]
      simp [hb]

/-- C5: interrupting a multi-input run after the first
`status.measurement_start` yields exactly one `measurement` event — the
in-flight input completes and no later input starts — and the event-key
sequence with consecutive duplicates collapsed is still the canonical order
ending in `status.measurement_done, status.end, task_terminated`. -/
theorem interrupt_single_measurement (s : Settings) (env : RunEnv)
    (a b : String) (rest : List String)
    (hin : s.inputs = a :: b :: rest)
    (hsoft : softCheck s = none)
    (hnc : s.noCollector = false)
    (hflag : ∀ i, 0 < i → env.interruptFlag i = true)
    (hpB : 1 ≤ env.progressBefore) (hpM : 1 ≤ env.progressMid)
    (hL : 1 ≤ env.logsPerInput 0) (hP : 1 ≤ env.progressPerInput 0) :
    (runTask s env).count EventKey.measurement = 1 ∧
    dedup (runTask s env) = [EventKey.queued, EventKey.started,
      EventKey.progress, EventKey.geoipLookup, EventKey.resolverLookup,
      EventKey.progress, EventKey.reportCreate, EventKey.measurementStart,
      EventKey.logEv, EventKey.progress, EventKey.measurement,
      EventKey.measurementSubmission, EventKey.measurementDone,
      EventKey.statusEnd, EventKey.taskTerminated] := by
  obtain ⟨n1, hn1⟩ : ∃ n, env.progressBefore = n + 1 :=
    ⟨env.progressBefore - 1, (Nat.succ_pred_eq_of_pos hpB).symm⟩
  obtain ⟨n2, hn2⟩ : ∃ n, env.progressMid = n + 1 :=
    ⟨env.progressMid - 1, (Nat.succ_pred_eq_of_pos hpM).symm⟩
  obtain ⟨n3, hn3⟩ : ∃ n, env.logsPerInput 0 = n + 1 :=
    ⟨env.logsPerInput 0 - 1, (Nat.succ_pred_eq_of_pos hL).symm⟩
  obtain ⟨n4, hn4⟩ : ∃ n, env.progressPerInput 0 = n + 1 :=
    ⟨env.progressPerInput 0 - 1, (Nat.succ_pred_eq_of_pos hP).symm⟩
  have heff : effectiveInputs s = a :: b :: rest := by
    simp [effectiveInputs, hin]
  have hloop : runInputs s env (a :: b :: rest) 0 env.setupDur =
      inputBlock s env 0 := by
    simp only [runInputs]
    rw [if_neg (by simp), if_pos ⟨Nat.one_pos, Or.inl (hflag 1 Nat.one_pos)⟩,
      List.append_nil]
  have htrace : runTask s env = EventKey.queued :: EventKey.started ::
      (List.replicate (n1 + 1) EventKey.progress ++ (EventKey.geoipLookup ::
        EventKey.resolverLookup :: (List.replicate (n2 + 1) EventKey.progress ++
        (EventKey.reportCreate :: EventKey.measurementStart ::
        (List.replicate (n3 + 1) EventKey.logEv ++
        (List.replicate (n4 + 1) EventKey.progress ++
        (EventKey.measurement :: EventKey.measurementSubmission ::
         EventKey.measurementDone :: EventKey.statusEnd ::
         EventKey.taskTerminated :: []))))))) := by
    simp [runTask, mainEvents, hsoft, heff, hloop, inputBlock, hnc, hn1, hn2,
      hn3, hn4, List.append_assoc]
  constructor
  · rw [htrace]
    simp [List.count_append, List.count_replicate, List.count_cons]
  · rw [htrace]
    have step : dedup (EventKey.queued :: EventKey.started ::
        (List.replicate (n1 + 1) EventKey.progress ++ (EventKey.geoipLookup ::
          EventKey.resolverLookup :: (List.replicate (n2 + 1) EventKey.progress ++
          (EventKey.reportCreate :: EventKey.measurementStart ::
          (List.replicate (n3 + 1) EventKey.logEv ++
          (List.replicate (n4 + 1) EventKey.progress ++
          (EventKey.measurement :: EventKey.measurementSubmission ::
           EventKey.measurementDone :: EventKey.statusEnd ::
           EventKey.taskTerminated :: [])))))))) =
        dedup [EventKey.queued, EventKey.started, EventKey.progress,
          EventKey.geoipLookup, EventKey.resolverLookup, EventKey.progress,
          EventKey.reportCreate, EventKey.measurementStart, EventKey.logEv,
          EventKey.progress, EventKey.measurement,
          EventKey.measurementSubmission, EventKey.measurementDone,
          EventKey.statusEnd, EventKey.taskTerminated] := by
      apply dedup_cons_congr
      apply dedup_cons_congr
      refine (dedup_replicate_succ n1 _ _).trans ?_
      apply dedup_cons_congr
      apply dedup_cons_congr
      apply dedup_cons_congr
      refine (dedup_replicate_succ n2 _ _).trans ?_
      apply dedup_cons_congr
      apply dedup_cons_congr
      apply dedup_cons_congr
      refine (dedup_replicate_succ n3 _ _).trans ?_
      apply dedup_cons_congr
      refine (dedup_replicate_succ n4 _ _).trans ?_
      rfl
    exact step.trans (by decide)

/-- Witness for C5 at the configuration of
TestIntegrationInterruptExampleWithInput: seven inputs, interrupt flag set
from the first checkpoint on. -/
theorem interrupt_single_measurement_witness :
    softCheck ⟨"ExampleWithInputNonInterruptible", "assets", "state",
      ["u", "v", "w"], [], false, false, false, 0, false, false, false⟩ = none ∧
    (runTask ⟨"ExampleWithInputNonInterruptible", "assets", "state",
      ["u", "v", "w"], [], false, false, false, 0, false, false, false⟩
      ⟨fun i => decide (0 < i), fun _ => 1, 0, 0, 1, 1, fun _ => 1,
        fun _ => 1⟩).count EventKey.measurement = 1 := by
  refine ⟨by decide, ?_⟩
  exact (interrupt_single_measurement _ _ "u" "v" ["w"] rfl (by decide) rfl
    (fun i hi => by simp [hi]) (le_refl 1) (le_refl 1) (le_refl 1)
    (le_refl 1)).1

/-- Helper: the effective input list is never empty. -/
theorem effectiveInputs_ne_nil (s : Settings) : effectiveInputs s ≠ [] := by
  unfold effectiveInputs
  split
  · simp
  · rename_i h
    simpa [List.isEmpty_iff] using h

/-- Helper: once past the first checkpoint, the elapsed clock can exceed the
deadline by at most the duration of the one in-flight input. -/
theorem elapsedAfter_le_of_pos (s : Settings) (env : RunEnv) (D : Nat)
    (hD : ∀ i, env.inputDur i ≤ D) (hmr : 0 < s.maxRuntime) :
    ∀ (l : List String) (i e : Nat), 0 < i →
      elapsedAfter s env l i e ≤ max e (s.maxRuntime.toNat + D) := by
  intro l
  induction l with
  | nil => intro i e _; simp [elapsedAfter]
  | cons x rest ih =>
    intro i e hi
    simp only [elapsedAfter]
    split
    · exact le_max_left _ _
    · rename_i hcond
      have hnd : ¬ deadlineExceeded s e = true := fun hd => hcond ⟨hi, Or.inr hd⟩
      have hne : ¬ (0 < s.maxRuntime ∧ s.maxRuntime ≤ (e : Int)) := by
        intro hc
        exact hnd (by unfold deadlineExceeded; exact decide_eq_true hc)
      have he : (e : Int) < s.maxRuntime := by
        by_contra hge
        push_neg at hge
        exact hne ⟨hmr, hge⟩
      have heN : e < s.maxRuntime.toNat := by omega
      have hstep : e + env.inputDur i ≤ s.maxRuntime.toNat + D := by
        have := hD i
        omega
      refine le_trans (ih (i + 1) (e + env.inputDur i) (Nat.succ_pos i)) ?_
      exact le_trans (max_le hstep le_rfl) (le_max_right _ _)

/-- C6: with max_runtime configured to 1 (second) the total wall-clock task
duration is bounded by setup time plus one deadline period plus the duration
of a single in-flight input plus finalization — independent of how many
inputs were configured or how long measuring all of them would take — and
the run still ends through the normal finalization tail with no failure
event. -/
theorem max_runtime_bound (s : Settings) (env : RunEnv) (D : Nat)
    (hsoft : softCheck s = none)
    (hmr : s.maxRuntime = 1)
    (hD : ∀ i, env.inputDur i ≤ D) :
    totalDuration s env ≤ env.setupDur + 1 + D + env.finalDur ∧
    (runTask s env).count EventKey.failureStartup = 0 ∧
    List.IsSuffix [EventKey.measurementDone, EventKey.statusEnd,
      EventKey.taskTerminated] (runTask s env) := by
  refine ⟨?_, ?_, ?_⟩
  · simp only [totalDuration, hsoft]
    have hloop : elapsedAfter s env (effectiveInputs s) 0 env.setupDur ≤
        env.setupDur + 1 + D := by
      obtain ⟨x, xs, hx⟩ : ∃ x xs, effectiveInputs s = x :: xs := by
        cases h : effectiveInputs s with
        | nil => exact absurd h (effectiveInputs_ne_nil s)
        | cons x xs => exact ⟨x, xs, rfl⟩
      rw [hx]
      simp only [elapsedAfter]
      rw [if_neg (by simp)]
      have hb := elapsedAfter_le_of_pos s env D hD
        (by rw [hmr]; decide) xs 1 (env.setupDur + env.inputDur 0) Nat.one_pos
      rw [hmr] at hb
      simp only [Int.toNat_one] at hb
      have hd0 := hD 0
      refine le_trans hb ?_
      apply max_le <;> omega
    omega
  · unfold runTask
    rw [List.count_append, List.count_append]
    have h0 : (mainEvents s env).count EventKey.failureStartup = 0 := by
      refine List.count_eq_zero.mpr ?_
      intro hx
      rcases mem_mainEvents_ok s env hsoft _ hx with h | h | h | h | h | h | h | h | h <;>
        simp at h
    rw [h0]
    decide
  · refine ⟨[EventKey.queued, EventKey.started] ++
      (List.replicate env.progressBefore EventKey.progress ++
       [EventKey.geoipLookup, EventKey.resolverLookup] ++
       List.replicate env.progressMid EventKey.progress ++
       (if s.noCollector then [] else [EventKey.reportCreate]) ++
       runInputs s env (effectiveInputs s) 0 env.setupDur), ?_⟩
    simp [runTask, mainEvents, hsoft, List.append_assoc]

/-- Witness for C6 at the configuration of TestIntegrationMaxRuntime: three
inputs, max_runtime one second. -/
theorem max_runtime_bound_witness :
    softCheck ⟨"ExampleWithInput", "assets", "state", ["a", "b", "c"], [],
      false, false, false, 1, false, false, false⟩ = none ∧
    totalDuration ⟨"ExampleWithInput", "assets", "state", ["a", "b", "c"], [],
      false, false, false, 1, false, false, false⟩
      ⟨fun _ => false, fun _ => 2, 3, 1, 1, 1, fun _ => 1, fun _ => 1⟩ ≤
      3 + 1 + 2 + 1 := by
  refine ⟨by decide, ?_⟩
  exact (max_runtime_bound _ _ 2 (by decide) rfl (fun _ => le_refl 2)).1

/-- C3: privacy flags act independently — for every combination of the three
save_real_probe_* flags, exactly the fields whose flag is set deviate from
the sentinels AS0 / ZZ / 127.0.0.1 in the emitted measurement, and each
unset flag forces its field to its sentinel. -/
theorem privacy_flags_independent (s : Settings) (m : MeasurementRec)
    (hASN : m.probeASN ≠ "AS0") (hCC : m.probeCC ≠ "ZZ")
    (hIP : m.probeIP ≠ "127.0.0.1") :
    ((scrubMeasurement s m).probeASN ≠ "AS0" ↔ s.saveRealProbeASN = true) ∧
    ((scrubMeasurement s m).probeCC ≠ "ZZ" ↔ s.saveRealProbeCC = true) ∧
    ((scrubMeasurement s m).probeIP ≠ "127.0.0.1" ↔ s.saveRealProbeIP = true) ∧
    (s.saveRealProbeASN = false → (scrubMeasurement s m).probeASN = "AS0") ∧
    (s.saveRealProbeCC = false → (scrubMeasurement s m).probeCC = "ZZ") ∧
    (s.saveRealProbeIP = false → (scrubMeasurement s m).probeIP = "127.0.0.1") ∧
    (s.saveRealProbeASN = true → (scrubMeasurement s m).probeASN = m.probeASN) ∧
    (s.saveRealProbeCC = true → (scrubMeasurement s m).probeCC = m.probeCC) ∧
    (s.saveRealProbeIP = true → (scrubMeasurement s m).probeIP = m.probeIP) := by
  cases hA : s.saveRealProbeASN <;> cases hC : s.saveRealProbeCC <;>
    cases hI : s.saveRealProbeIP <;>
    simp [scrubMeasurement, hA, hC, hI, hASN, hCC, hIP]

/-- Witness for C3 at one flag combination (save asn and ip, scrub cc) with
real-looking probe values. -/
theorem privacy_flags_independent_witness :
    (scrubMeasurement ⟨"Example", "assets", "state", [], [], false, false,
        false, 0, true, false, true⟩
      ⟨"AS30722", "IT", "130.192.91.231"⟩).probeASN = "AS30722" ∧
    (scrubMeasurement ⟨"Example", "assets", "state", [], [], false, false,
        false, 0, true, false, true⟩
      ⟨"AS30722", "IT", "130.192.91.231"⟩).probeCC = "ZZ" ∧
    (scrubMeasurement ⟨"Example", "assets", "state", [], [], false, false,
        false, 0, true, false, true⟩
      ⟨"AS30722", "IT", "130.192.91.231"⟩).probeIP = "130.192.91.231" := by
  have h := privacy_flags_independent
    ⟨"Example", "assets", "state", [], [], false, false, false, 0, true,
      false, true⟩
    ⟨"AS30722", "IT", "130.192.91.231"⟩ (by decide) (by decide) (by decide)
  exact ⟨h.2.2.2.2.2.2.1 rfl, h.2.2.2.2.1 rfl, h.2.2.2.2.2.2.2.2 rfl⟩

/-- Helper: registering with valid metadata when credentials are already in
the state file is a no-op success. -/
theorem maybeRegister_already_registered (md : OrchestraMetadata)
    (c : OrchestraClient) (hmd : metadataValid md = true)
    (hc : c.stateCreds.isSome = true) : maybeRegister md c = (c, none) := by
  cases hcc : c.stateCreds with
  | none => rw [hcc] at hc; simp at hc
  | some p => simp [maybeRegister, hmd, hcc]

/-- C8: MaybeRegister is idempotent — with valid metadata, a state file that
already holds credentials short-circuits to success with no network call,
and after one successful registration every subsequent call (any number of
repetitions) succeeds without changing the state, so the registration API is
invoked at most once. -/
theorem maybeRegister_at_most_once (md : OrchestraMetadata)
    (c : OrchestraClient) (hmd : metadataValid md = true) :
    (c.stateCreds.isSome = true → maybeRegister md c = (c, none)) ∧
    ((maybeRegister md c).2 = none →
      maybeRegister md (maybeRegister md c).1 = ((maybeRegister md c).1, none) ∧
      (∀ n, repeatMaybeRegister md n (maybeRegister md c).1 =
        (maybeRegister md c).1) ∧
      ((maybeRegister md c).1).registerCalls ≤ c.registerCalls + 1) := by
  refine ⟨fun hc => maybeRegister_already_registered md c hmd hc, fun hok => ?_⟩
  have hcreds : ((maybeRegister md c).1).stateCreds.isSome = true := by
    unfold maybeRegister at hok ⊢
    simp only [hmd] at hok ⊢
    cases hcc : c.stateCreds with
    | some p => simp [hcc]
    | none =>
      simp only [hcc] at hok ⊢
      cases hw : c.apiWorks with
      | true => simp [hw]
      | false => simp [hw] at hok
  have hfix : maybeRegister md (maybeRegister md c).1 =
      ((maybeRegister md c).1, none) :=
    maybeRegister_already_registered md _ hmd hcreds
  refine ⟨hfix, fun n => ?_, ?_⟩
  · induction n with
    | zero => rfl
    | succ k ihk =>
      simp only [repeatMaybeRegister]
      rw [hfix]
      exact ihk
  · unfold maybeRegister
    simp only [hmd]
    cases hcc : c.stateCreds with
    | some p => simp
    | none => cases hw : c.apiWorks <;> simp

/-- Witness for C8: registering twice from a fresh state with the metadata
fixture performs exactly one API call and repeats are no-ops. -/
theorem maybeRegister_at_most_once_witness :
    metadataValid orchestraMetadataFixture = true ∧
    (maybeRegister orchestraMetadataFixture ⟨none, 0, true⟩).2 = none ∧
    repeatMaybeRegister orchestraMetadataFixture 5
      (maybeRegister orchestraMetadataFixture ⟨none, 0, true⟩).1 =
      (maybeRegister orchestraMetadataFixture ⟨none, 0, true⟩).1 ∧
    ((maybeRegister orchestraMetadataFixture ⟨none, 0, true⟩).1).registerCalls = 1 := by
  have h := maybeRegister_at_most_once orchestraMetadataFixture
    ⟨none, 0, true⟩ (by decide)
  exact ⟨by decide, by decide, (h.2 (by decide)).2.1 5, by decide⟩

/-- C9 counterexample: the all-digit string for two to the sixty-third power
matches the integer regular expression yet is not set as a 64-bit integer
option — strconv.ParseInt overflows and the code takes the fatal path
instead. -/
theorem setExperimentOption_overflow_counterexample :
    intRegexpMatch "9223372036854775808" = true ∧
    setExperimentOption "k" "9223372036854775808" =
      OptionAction.fatal "cannot parse integer option" ∧
    setExperimentOption "k" "9223372036854775808" ≠
      OptionAction.setInt "k" 9223372036854775808 := by
  refine ⟨by decide, by decide, by decide⟩

/-- C9 (amended): option values are coerced deterministically by exactly one
branch — the literals true/false become boolean options; any other all-digit
value whose numeric value fits a signed 64-bit integer becomes an integer
option; an all-digit value exceeding that range aborts with a fatal parse
error instead of being set; every other value becomes a string option. -/
theorem setExperimentOption_branches (key value : String) :
    ((value = "true" ∨ value = "false") →
      setExperimentOption key value = OptionAction.setBool key (value == "true")) ∧
    (value ≠ "true" → value ≠ "false" → intRegexpMatch value = true →
      digitsToNat value ≤ maxInt64 →
      setExperimentOption key value = OptionAction.setInt key (digitsToNat value)) ∧
    (value ≠ "true" → value ≠ "false" → intRegexpMatch value = true →
      maxInt64 < digitsToNat value →
      setExperimentOption key value =
        OptionAction.fatal "cannot parse integer option") ∧
    (value ≠ "true" → value ≠ "false" → intRegexpMatch value = false →
      setExperimentOption key value = OptionAction.setString key value) := by
  refine ⟨fun h => ?_, fun h1 h2 h3 h4 => ?_, fun h1 h2 h3 h4 => ?_,
    fun h1 h2 h3 => ?_⟩
  · simp [setExperimentOption, h]
  · simp [setExperimentOption, h1, h2, h3, goParseInt64, h4]
  · simp [setExperimentOption, h1, h2, h3, goParseInt64, Nat.not_le.mpr h4]
  · simp [setExperimentOption, h1, h2, h3]

/-- Witness for C9 (amended) on a representative digit string. -/
theorem setExperimentOption_branches_witness :
    setExperimentOption "k" "12" = OptionAction.setInt "k" 12 := by
  have h := (setExperimentOption_branches "k" "12").2.1 (by decide) (by decide)
    (by decide) (by decide)
  rw [h]
  decide

/-- C7: whenever the hhfm HTTP transaction with the test helper fails, or
the helper response body does not parse as JSON, Run returns no error to the
caller and records the failure inside the TestKeys — Failure becomes
non-nil and Tampering.Total becomes true. -/
theorem hhfm_run_records_failure (d : RunDeps) (helper : TestHelper)
    (rest : List TestHelper)
    (hh : d.helpers = some (helper :: rest))
    (ht : helper.helperType = "legacy")
    (hr : d.newRequestErr = none)
    (hfail : (∃ e, transact d.roundTrip d.readBodyErr = Except.error e) ∨
      (∃ r, transact d.roundTrip d.readBodyErr = Except.ok r ∧
        d.parseJSONHeaders r.body = none)) :
    (hhfmRun d).1 = none ∧ (hhfmRun d).2.failure.isSome = true ∧
    (hhfmRun d).2.tampering.total = true := by
  unfold hhfmRun
  rw [hh, hr]
  rcases hfail with ⟨e, he⟩ | ⟨r, hok, hp⟩
  · rw [he]
    simp [ht]
  · rw [hok]
    simp [ht, hp]

/-- Witness for C7: a failed round trip against a legacy helper yields a nil
error with the failure recorded in the test keys. -/
theorem hhfm_run_records_failure_witness :
    (hhfmRun ⟨some [⟨"http://a.b", "legacy"⟩], none, [("Host", "x.com")],
      Except.error "connection_reset", none, fun _ => none⟩).1 = none ∧
    (hhfmRun ⟨some [⟨"http://a.b", "legacy"⟩], none, [("Host", "x.com")],
      Except.error "connection_reset", none, fun _ => none⟩).2.tampering.total
      = true := by
  have h := hhfm_run_records_failure
    ⟨some [⟨"http://a.b", "legacy"⟩], none, [("Host", "x.com")],
      Except.error "connection_reset", none, fun _ => none⟩
    ⟨"http://a.b", "legacy"⟩ [] rfl rfl rfl
    (Or.inl ⟨"connection_reset", rfl⟩)
  exact ⟨h.1, h.2.2⟩

/-- C10: the archival request entry built by NewRequestEntryList and the
archival response built by NewHTTPResponse keep their HeadersList sorted in
ascending header-key order and containing exactly the key/value pairs of
their Headers map. -/
theorem hhfm_headers_sorted_and_complete (method url : String) (code : Int)
    (data : String) (reqHeaders respHeaders : List (String × String)) :
    (∃ e, NewRequestEntryList method url reqHeaders = [e] ∧
      List.Sorted headerLe e.request.headersList ∧
      (e.request.headersList.map headerPair).Perm e.request.headers) ∧
    (List.Sorted headerLe (NewHTTPResponse code respHeaders data).headersList ∧
      ((NewHTTPResponse code respHeaders data).headersList.map headerPair).Perm
        (NewHTTPResponse code respHeaders data).headers) := by
  refine ⟨⟨_, rfl, ?_, ?_⟩, ?_, ?_⟩
  · exact List.sorted_insertionSort headerLe _
  · have hperm := (List.perm_insertionSort headerLe
      (reqHeaders.map (fun kv =>
        ({ key := kv.1, value := ⟨kv.2⟩ } : HTTPHeader)))).map headerPair
    simpa [List.map_map, Function.comp, headerPair] using hperm
  · exact List.sorted_insertionSort headerLe _
  · have hperm := (List.perm_insertionSort headerLe
      (respHeaders.map (fun kv =>
        ({ key := kv.1, value := ⟨kv.2⟩ } : HTTPHeader)))).map headerPair
    simpa [List.map_map, Function.comp, headerPair, NewHTTPResponse] using hperm
